import Mathlib

/-!
Verification of the terminator-branch analysis and rewriting engine of the
Mips backend (lib/Target/Mips/MipsInstrInfo.cpp): a shallow embedding of the
instruction/operand data model, the branch analyzer, the branch
builder/editor, the compact-form selector and the instruction rebuilder,
with theorems settling the stated properties of each component.

Opcode and register identifiers are opaque unsigned integers in the source
(values come from the generated MipsGenInstrInfo.inc table; only their
distinctness matters), so they are embedded as distinct `Nat` constants.
`0` is never an opcode: `getEquivalentCompactForm` returns the unsigned `0`
for "no compact form", and register number `0` plays LLVM's `NoRegister`.
-/

namespace Mips

/-- Architectural zero register, 32-bit register class (`Mips::ZERO`). -/
abbrev ZERO : Nat := 1
/-- Architectural zero register, 64-bit register class (`Mips::ZERO_64`). -/
abbrev ZERO_64 : Nat := 2

abbrev B : Nat := 11
abbrev BAL : Nat := 12
abbrev BC : Nat := 13
abbrev BALC : Nat := 14
abbrev BEQ : Nat := 15
abbrev BEQ_MM : Nat := 16
abbrev BNE : Nat := 17
abbrev BNE_MM : Nat := 18
abbrev BEQC : Nat := 19
abbrev BNEC : Nat := 20
abbrev BEQZC_MM : Nat := 21
abbrev BNEZC_MM : Nat := 22
abbrev BEQZC : Nat := 23
abbrev BNEZC : Nat := 24
abbrev BGE : Nat := 25
abbrev BGEC : Nat := 26
abbrev BGEU : Nat := 27
abbrev BGEUC : Nat := 28
abbrev BGEZ : Nat := 29
abbrev BGEZC : Nat := 30
abbrev BGTZ : Nat := 31
abbrev BGTZC : Nat := 32
abbrev BLEZ : Nat := 33
abbrev BLEZC : Nat := 34
abbrev BLT : Nat := 35
abbrev BLTC : Nat := 36
abbrev BLTU : Nat := 37
abbrev BLTUC : Nat := 38
abbrev BLTZ : Nat := 39
abbrev BLTZC : Nat := 40
abbrev JR : Nat := 41
abbrev JR64 : Nat := 42
abbrev PseudoReturn : Nat := 43
abbrev PseudoReturn64 : Nat := 44
abbrev PseudoIndirectBranch : Nat := 45
abbrev PseudoIndirectBranch64 : Nat := 46
abbrev JIC : Nat := 47
abbrev JIC64 : Nat := 48
abbrev JALRPseudo : Nat := 49
abbrev JALR64Pseudo : Nat := 50
abbrev JIALC : Nat := 51
abbrev JIALC64 : Nat := 52
abbrev JRC16_MM : Nat := 53

end Mips

/-- `MachineOperand`: tagged variant — register reference, immediate
integer, basic-block target reference, external-symbol reference.
Basic blocks are identified by a number. -/
inductive MachineOperand where
  | reg (r : Nat)
  | imm (i : Int)
  | mbb (b : Nat)
  | sym (s : String)
deriving Repr, DecidableEq

def MachineOperand.isReg : MachineOperand → Bool
  | .reg _ => true
  | _ => false

def MachineOperand.isImm : MachineOperand → Bool
  | .imm _ => true
  | _ => false

/-- `getReg` asserts `isReg()` in the source; out of its domain the model
returns `0` (LLVM's `NoRegister`, never a real register). -/
def MachineOperand.getReg : MachineOperand → Nat
  | .reg r => r
  | _ => 0

/-- `getImm` asserts `isImm()` in the source; `0` out of its domain. -/
def MachineOperand.getImm : MachineOperand → Int
  | .imm i => i
  | _ => 0

/-- `getMBB` asserts `isMBB()` in the source; block `0` out of its domain. -/
def MachineOperand.getMBB : MachineOperand → Nat
  | .mbb b => b
  | _ => 0

/-- A machine instruction: an opcode, its explicit operands (the
descriptor-arity prefix of the operand list; the instructions these
theorems touch carry no implicit register operands, which the source code
copies wholesale and never inspects), and the classification flags the
source reads off the generated opcode-description table. `isTerminatorF`
stands for `isUnpredicatedTerminator` (Mips defines no predication). -/
structure MachineInstr where
  opcode : Nat
  operands : List MachineOperand
  isDebugValueF : Bool := false
  isTerminatorF : Bool := false
  isBranchF : Bool := false
  isUncondBranchF : Bool := false
  isIndirectBranchF : Bool := false
  isPseudoF : Bool := false
deriving Repr, DecidableEq

/-- `getOperand(i)` asserts `i < getNumOperands()` in the source; a
non-register, non-immediate placeholder out of range. -/
def MachineInstr.getOperand (I : MachineInstr) (i : Nat) : MachineOperand :=
  I.operands.getD i (.sym "")

/-- Capability flags of one `MipsSubtarget`: ISA revision tier, compressed
mode, and the ABI's architectural zero register
(`Subtarget.getABI().GetZeroReg()`, which is `Mips::ZERO` for 32-bit GPR
ABIs and `Mips::ZERO_64` for 64-bit ones). -/
structure SubtargetFlags where
  inMicroMipsMode : Bool
  hasMips32r6 : Bool
  zeroReg : Nat
deriving Repr, DecidableEq

/-- `MipsInstrInfo::getEquivalentCompactForm`: the corresponding compact
(no delay slot) form of a branch, `0` when none exists. -/
def getEquivalentCompactForm (ST : SubtargetFlags) (I : MachineInstr) : Nat :=
  let Opcode := I.opcode
  let canUseShortMicroMipsCTI : Bool :=
    if ST.inMicroMipsMode then
      if Opcode = Mips.BNE ∨ Opcode = Mips.BNE_MM ∨ Opcode = Mips.BEQ ∨
          Opcode = Mips.BEQ_MM then
        -- microMIPS has NE,EQ branches without delay slots provided one
        -- of the operands is zero.
        (I.getOperand 1).getReg == ST.zeroReg
      else if Opcode = Mips.JR ∨ Opcode = Mips.PseudoReturn ∨
          Opcode = Mips.PseudoIndirectBranch then
        true
      else false
    else false
  -- MIPSR6 forbids both operands being the zero register.
  if ST.hasMips32r6 ∧ I.operands.length > 1 ∧
      ((I.getOperand 0).isReg = true ∧
        ((I.getOperand 0).getReg = Mips.ZERO ∨
          (I.getOperand 0).getReg = Mips.ZERO_64)) ∧
      ((I.getOperand 1).isReg = true ∧
        ((I.getOperand 1).getReg = Mips.ZERO ∨
          (I.getOperand 1).getReg = Mips.ZERO_64)) then
    0
  else if ST.hasMips32r6 ∨ canUseShortMicroMipsCTI = true then
    if Opcode = Mips.B then Mips.BC
    else if Opcode = Mips.BAL then Mips.BALC
    else if Opcode = Mips.BEQ ∨ Opcode = Mips.BEQ_MM then
      if canUseShortMicroMipsCTI then Mips.BEQZC_MM
      else if (I.getOperand 0).getReg = (I.getOperand 1).getReg then 0
      else Mips.BEQC
    else if Opcode = Mips.BNE ∨ Opcode = Mips.BNE_MM then
      if canUseShortMicroMipsCTI then Mips.BNEZC_MM
      else if (I.getOperand 0).getReg = (I.getOperand 1).getReg then 0
      else Mips.BNEC
    else if Opcode = Mips.BGE then
      if (I.getOperand 0).getReg = (I.getOperand 1).getReg then 0 else Mips.BGEC
    else if Opcode = Mips.BGEU then
      if (I.getOperand 0).getReg = (I.getOperand 1).getReg then 0 else Mips.BGEUC
    else if Opcode = Mips.BGEZ then Mips.BGEZC
    else if Opcode = Mips.BGTZ then Mips.BGTZC
    else if Opcode = Mips.BLEZ then Mips.BLEZC
    else if Opcode = Mips.BLT then
      if (I.getOperand 0).getReg = (I.getOperand 1).getReg then 0 else Mips.BLTC
    else if Opcode = Mips.BLTU then
      if (I.getOperand 0).getReg = (I.getOperand 1).getReg then 0 else Mips.BLTUC
    else if Opcode = Mips.BLTZ then Mips.BLTZC
    else if Opcode = Mips.JR ∨ Opcode = Mips.PseudoReturn ∨
        Opcode = Mips.PseudoIndirectBranch then
      if canUseShortMicroMipsCTI then Mips.JRC16_MM else Mips.JIC
    else if Opcode = Mips.JALRPseudo then Mips.JIALC
    else if Opcode = Mips.JR64 ∨ Opcode = Mips.PseudoReturn64 ∨
        Opcode = Mips.PseudoIndirectBranch64 then Mips.JIC64
    else if Opcode = Mips.JALR64Pseudo then Mips.JIALC64
    else 0
  else 0

/-- An instruction under construction (`MachineInstrBuilder`): its opcode
and the explicit operands added to it, in order. Implicit operands and
memory-operand descriptors are copied verbatim by the source
(`copyImplicitOps`, `setMemRefs`) and never inspected, so they stay
outside the model. -/
structure BuiltInstr where
  opcode : Nat
  operands : List MachineOperand
deriving Repr, DecidableEq

/-- The zero-operand short-variant substitution table of
`MipsInstrInfo::genInstrWithNewOpc` (the `switch (NewOpc)` under
`BranchWithZeroOperand`): opcodes outside it are left unchanged. -/
def zeroOperandVariant (NewOpc : Nat) : Nat :=
  if NewOpc = Mips.BEQC then Mips.BEQZC
  else if NewOpc = Mips.BNEC then Mips.BNEZC
  else if NewOpc = Mips.BGEC then Mips.BGEZC
  else if NewOpc = Mips.BLTC then Mips.BLTZC
  else NewOpc

/-- `MipsInstrInfo::genInstrWithNewOpc`: rebuild the instruction at `I`
with opcode `NewOpc`. The `JIALC`/`JIALC64` path's `RemoveOperand(0)`
removes the freshly built instruction's implicit `%RA` definition, which
is outside the explicit-operand model. -/
def genInstrWithNewOpc (NewOpc : Nat) (I : MachineInstr) : BuiltInstr :=
  let BranchWithZeroOperand : Bool :=
    I.isBranchF && !I.isPseudoF && (I.getOperand 1).isReg &&
      ((I.getOperand 1).getReg == Mips.ZERO ||
        (I.getOperand 1).getReg == Mips.ZERO_64)
  let NewOpc2 : Nat :=
    if BranchWithZeroOperand then zeroOperandVariant NewOpc else NewOpc
  if NewOpc2 = Mips.JIC ∨ NewOpc2 = Mips.JIALC ∨ NewOpc2 = Mips.JIC64 ∨
      NewOpc2 = Mips.JIALC64 then
    -- JI*C requires an immediate 0 appended after the copied operands.
    { opcode := NewOpc2, operands := I.operands ++ [.imm 0] }
  else if BranchWithZeroOperand then
    -- Copy operand 0, then everything after the zero.
    { opcode := NewOpc2, operands := I.operands.take 1 ++ I.operands.drop 2 }
  else
    -- All other cases copy all other operands.
    { opcode := NewOpc2, operands := I.operands }

/-- The branch-shape tag `MipsInstrInfo::BranchType`. `BT_None` is the
"Unanalyzable" shape, `BT_NoBranch` the fall-through one. -/
inductive BranchType where
  | BT_None
  | BT_NoBranch
  | BT_Uncond
  | BT_Cond
  | BT_CondUncond
  | BT_Indirect
deriving Repr, DecidableEq

/-- What one call to the five-argument `MipsInstrInfo::analyzeBranch`
leaves behind: the returned `BranchType`, the `TBB`/`FBB` out-parameters
(`none` when the call never assigns them), the condition operands pushed
into `Cond`, and the basic block's instruction sequence after the call
(`analyzeBranch` may erase a dead terminator). -/
structure AnalyzeResult where
  bt : BranchType
  tbb : Option Nat
  fbb : Option Nat
  cond : List MachineOperand
  blk : List MachineInstr
deriving Repr, DecidableEq

/-- `MipsInstrInfo::AnalyzeCondBr`: the target block is the last explicit
operand; the condition is the opcode as an immediate followed by every
explicit operand before the target. -/
def analyzeCondBr (Inst : MachineInstr) (Opc : Nat) : Nat × List MachineOperand :=
  let NumOp := Inst.operands.length
  ((Inst.getOperand (NumOp - 1)).getMBB,
    .imm (Int.ofNat Opc) :: Inst.operands.take (NumOp - 1))

/-- The single-terminator tail of `MipsInstrInfo::analyzeBranch` (also
reached when the second-to-last instruction is neither a terminator nor an
analyzable branch). -/
def analyzeSingleBr (MBB : List MachineInstr) (LastInst : MachineInstr) :
    AnalyzeResult :=
  if LastInst.isUncondBranchF then
    ⟨.BT_Uncond, some ((LastInst.getOperand 0).getMBB), none, [], MBB⟩
  else
    ⟨.BT_Cond, some (analyzeCondBr LastInst LastInst.opcode).1, none,
      (analyzeCondBr LastInst LastInst.opcode).2, MBB⟩

/-- The five-argument `MipsInstrInfo::analyzeBranch`, parameterized over
the target's analyzable-branch predicate (`getAnalyzableBrOpc`, a virtual
supplied by `MipsSEInstrInfo`/`Mips16InstrInfo`; no analyzable opcode is
`0`, so its nonzero return is modelled as the predicate holding). The
block is a list of instructions in program order; the source scans it
through reverse iterators, hence the `reverse`. -/
def analyzeBranchModel (analyzable : Nat → Bool) (MBB : List MachineInstr)
    (AllowModify : Bool) : AnalyzeResult :=
  -- Skip all the debug instructions.
  match MBB.reverse.dropWhile MachineInstr.isDebugValueF with
  | [] => ⟨.BT_NoBranch, none, none, [], MBB⟩
  | LastInst :: rest1 =>
    if !LastInst.isTerminatorF then
      -- The block ends with no branches: it falls through.
      ⟨.BT_NoBranch, none, none, [], MBB⟩
    else if !analyzable LastInst.opcode then
      -- Not an analyzable branch (e.g., indirect jump).
      ⟨if LastInst.isIndirectBranchF then .BT_Indirect else .BT_None,
        none, none, [], MBB⟩
    else
      match rest1 with
      | [] => analyzeSingleBr MBB LastInst
      | SecondLastInst :: rest2 =>
        if SecondLastInst.isTerminatorF && !analyzable SecondLastInst.opcode then
          -- Not an analyzable branch (must be an indirect jump).
          ⟨.BT_None, none, none, [], MBB⟩
        else if !analyzable SecondLastInst.opcode then
          -- Only one terminator instruction: process it.
          analyzeSingleBr MBB LastInst
        -- If there are three terminators, we don't know what sort of
        -- block this is.
        else if (match rest2 with
                 | ThirdInst :: _ => ThirdInst.isTerminatorF
                 | [] => false) then
          ⟨.BT_None, none, none, [], MBB⟩
        else if SecondLastInst.isUncondBranchF then
          -- Second to last is unconditional: analyze it and remove the
          -- last instruction — unless the last cannot be removed.
          if !AllowModify then ⟨.BT_None, none, none, [], MBB⟩
          else
            ⟨.BT_Uncond, some ((SecondLastInst.getOperand 0).getMBB), none, [],
              (SecondLastInst :: rest2).reverse ++
                (MBB.reverse.takeWhile MachineInstr.isDebugValueF).reverse⟩
        else if !LastInst.isUncondBranchF then
          -- Conditional branch followed by an unconditional branch: the
          -- last one must be unconditional.
          ⟨.BT_None, none, none, [], MBB⟩
        else
          ⟨.BT_CondUncond,
            some (analyzeCondBr SecondLastInst SecondLastInst.opcode).1,
            some ((LastInst.getOperand 0).getMBB),
            (analyzeCondBr SecondLastInst SecondLastInst.opcode).2, MBB⟩

/-- The four-argument boolean `MipsInstrInfo::analyzeBranch` wrapper that
generic callers see: true means the branch could not be analyzed. -/
def analyzeBranchBool (analyzable : Nat → Bool) (MBB : List MachineInstr)
    (AllowModify : Bool) : Bool :=
  let BT := (analyzeBranchModel analyzable MBB AllowModify).bt
  decide (BT = .BT_None) || decide (BT = .BT_Indirect)

/-- The removal loop of `MipsInstrInfo::RemoveBranch` with its fuel
(`removed < 2`): how many trailing analyzable branches get erased. -/
def removeLoopCount (analyzable : Nat → Bool) :
    List MachineInstr → Nat → Nat
  | _, 0 => 0
  | [], _ + 1 => 0
  | I :: rest, fuel + 1 =>
    if analyzable I.opcode then removeLoopCount analyzable rest fuel + 1 else 0

/-- `MipsInstrInfo::RemoveBranch`: skip the trailing debug instructions,
erase up to 2 trailing analyzable branches (indirect branches are not
analyzable, hence never removed), return the count removed and the block
left behind. -/
def removeBranchModel (analyzable : Nat → Bool) (MBB : List MachineInstr) :
    Nat × List MachineInstr :=
  let rev := MBB.reverse
  let rest := rev.dropWhile MachineInstr.isDebugValueF
  let removed := removeLoopCount analyzable rest 2
  (removed,
    (rest.drop removed).reverse ++
      (rev.takeWhile MachineInstr.isDebugValueF).reverse)

/-- One operand copy step of `MipsInstrInfo::BuildCondBr`: register and
immediate condition operands are copied; any other kind trips
`assert(false && "Cannot copy operand")` in the source and contributes
nothing here. -/
def copyCondOperand (o : MachineOperand) : List MachineOperand :=
  match o with
  | .reg r => [.reg r]
  | .imm i => [.imm i]
  | _ => []

/-- `MipsInstrInfo::BuildCondBr`: materialize the conditional branch for
`(Cond, TBB)` — opcode from `Cond[0]`, then the remaining condition
operands, then the target block. -/
def buildCondBr (TBB : Nat) (Cond : List MachineOperand) : BuiltInstr :=
  { opcode := (Cond.headD (.imm 0)).getImm.toNat,
    operands := ((Cond.drop 1).map copyCondOperand).flatten ++ [.mbb TBB] }

/-- `MipsInstrInfo::InsertBranch`: the instructions appended to the block
and the returned count. `TBB` is never null (asserted in the source), so
it is a plain block number here; `UncondBrOpc` is the per-subtarget
unconditional-branch opcode the constructor stored. -/
def insertBranchModel (UncondBrOpc : Nat) (TBB : Nat) (FBB : Option Nat)
    (Cond : List MachineOperand) : List BuiltInstr × Nat :=
  match FBB with
  | some f =>
    -- Two-way conditional branch.
    ([buildCondBr TBB Cond, ⟨UncondBrOpc, [.mbb f]⟩], 2)
  | none =>
    if Cond.isEmpty then ([⟨UncondBrOpc, [.mbb TBB]⟩], 1)
    else ([buildCondBr TBB Cond], 1)

/-- Modelled from the spec: `MipsInstrInfo::getOppositeBranchOpc` is a
virtual whose implementations (`MipsSEInstrInfo.cpp`, `Mips16InstrInfo.cpp`)
are not part of this repository; the spec describes it as a fixed
opcode↔opcode logical-negation table ("branch if equal" ↔ "branch if not
equal", "branch if less" ↔ "branch if greater-or-equal"). Outside the
table the source hits `llvm_unreachable`; the model returns the opcode
unchanged there. -/
def getOppositeBranchOpc (Opc : Nat) : Nat :=
  if Opc = Mips.BEQ then Mips.BNE
  else if Opc = Mips.BNE then Mips.BEQ
  else if Opc = Mips.BEQ_MM then Mips.BNE_MM
  else if Opc = Mips.BNE_MM then Mips.BEQ_MM
  else if Opc = Mips.BGEZ then Mips.BLTZ
  else if Opc = Mips.BLTZ then Mips.BGEZ
  else if Opc = Mips.BGTZ then Mips.BLEZ
  else if Opc = Mips.BLEZ then Mips.BGTZ
  else if Opc = Mips.BEQC then Mips.BNEC
  else if Opc = Mips.BNEC then Mips.BEQC
  else if Opc = Mips.BEQZC then Mips.BNEZC
  else if Opc = Mips.BNEZC then Mips.BEQZC
  else if Opc = Mips.BGEC then Mips.BLTC
  else if Opc = Mips.BLTC then Mips.BGEC
  else if Opc = Mips.BGEUC then Mips.BLTUC
  else if Opc = Mips.BLTUC then Mips.BGEUC
  else if Opc = Mips.BGEZC then Mips.BLTZC
  else if Opc = Mips.BLTZC then Mips.BGEZC
  else if Opc = Mips.BGTZC then Mips.BLEZC
  else if Opc = Mips.BLEZC then Mips.BGTZC
  else Opc

/-- The conditional-branch opcodes the negation table covers: the
condition descriptors the analyzer produces carry one of these as their
leading opcode-as-immediate element. -/
def condBrOpcodes : List Nat :=
  [Mips.BEQ, Mips.BNE, Mips.BEQ_MM, Mips.BNE_MM, Mips.BGEZ, Mips.BLTZ,
   Mips.BGTZ, Mips.BLEZ, Mips.BEQC, Mips.BNEC, Mips.BEQZC, Mips.BNEZC,
   Mips.BGEC, Mips.BLTC, Mips.BGEUC, Mips.BLTUC, Mips.BGEZC, Mips.BLTZC,
   Mips.BGTZC, Mips.BLEZC]

/-- `MipsInstrInfo::ReverseBranchCondition`: rewrite `Cond[0]` (asserted
non-empty, at most 3 elements) to the opposite branch opcode in place. -/
def reverseBranchCondition (Cond : List MachineOperand) :
    List MachineOperand :=
  match Cond with
  | [] => []
  | c0 :: rest => .imm (Int.ofNat (getOppositeBranchOpc c0.getImm.toNat)) :: rest


/-! ## Theorems -/

/-- C1 (amended): for a register-equality-test branch (BEQ, BNE and their
microMIPS variants) whose two compared register operands are identical,
`getEquivalentCompactForm` returns none (0) for every combination of
capability flags — except in microMIPS mode without MIPS32r6 when the
identical register is the ABI zero register, where it returns the short
microMIPS form (BEQZC_MM / BNEZC_MM). -/
theorem compactForm_eqne_identical_regs (ST : SubtargetFlags)
    (I : MachineInstr) (r : Nat) (rest : List MachineOperand)
    (hop : I.opcode = Mips.BEQ ∨ I.opcode = Mips.BNE ∨
      I.opcode = Mips.BEQ_MM ∨ I.opcode = Mips.BNE_MM)
    (hops : I.operands = .reg r :: .reg r :: rest)
    (hz : ST.zeroReg = Mips.ZERO ∨ ST.zeroReg = Mips.ZERO_64) :
    getEquivalentCompactForm ST I =
      if ST.inMicroMipsMode = true ∧ ST.hasMips32r6 = false ∧
          r = ST.zeroReg then
        (if I.opcode = Mips.BEQ ∨ I.opcode = Mips.BEQ_MM then Mips.BEQZC_MM
         else Mips.BNEZC_MM)
      else 0 := by
  obtain ⟨micro, r6, zr⟩ := ST
  rcases hz with rfl | rfl <;>
    rcases hop with h | h | h | h <;>
      cases micro <;> cases r6 <;>
        by_cases h1 : r = Mips.ZERO <;> by_cases h2 : r = Mips.ZERO_64 <;>
          simp_all [getEquivalentCompactForm, MachineInstr.getOperand,
            MachineOperand.getReg, MachineOperand.isReg]

/-- C1 counterexample: BEQ comparing the zero register with itself, in
microMIPS mode without MIPS32r6, gets the compact form BEQZC_MM — not
none as the claim states. -/
theorem compactForm_eqne_identical_regs_cex :
    getEquivalentCompactForm ⟨true, false, Mips.ZERO⟩
      { opcode := Mips.BEQ,
        operands := [.reg Mips.ZERO, .reg Mips.ZERO, .mbb 1],
        isTerminatorF := true, isBranchF := true } = Mips.BEQZC_MM ∧
    Mips.BEQZC_MM ≠ 0 := by
  decide

/-- C1 witness: BNE $10, $10 under MIPS32r6 without microMIPS maps to
none, as the amended claim predicts. -/
theorem compactForm_eqne_identical_regs_witness :
    getEquivalentCompactForm ⟨false, true, Mips.ZERO⟩
      { opcode := Mips.BNE, operands := [.reg 10, .reg 10, .mbb 2],
        isTerminatorF := true, isBranchF := true } = 0 := by
  have h := compactForm_eqne_identical_regs ⟨false, true, Mips.ZERO⟩
    { opcode := Mips.BNE, operands := [.reg 10, .reg 10, .mbb 2],
      isTerminatorF := true, isBranchF := true } 10 [.mbb 2]
    (Or.inr (Or.inl rfl)) rfl (Or.inl rfl)
  simpa using h

set_option maxHeartbeats 2000000 in
/-- C4 (amended): for a two-register compare branch whose two compared
operands are both architectural zero registers, `getEquivalentCompactForm`
returns none (0) whenever MIPS32r6 is set, overriding every other rule
including the short/compressed-mode one; without MIPS32r6 the override
does not exist, and the short/compressed-mode rule returns BEQZC_MM /
BNEZC_MM in microMIPS mode for the equality-test opcodes when operand 1
is the ABI zero register — every other combination returns none. -/
theorem compactForm_zero_zero_operands (ST : SubtargetFlags)
    (I : MachineInstr) (z0 z1 : Nat) (rest : List MachineOperand)
    (hop : I.opcode = Mips.BEQ ∨ I.opcode = Mips.BNE ∨
      I.opcode = Mips.BEQ_MM ∨ I.opcode = Mips.BNE_MM ∨
      I.opcode = Mips.BGE ∨ I.opcode = Mips.BGEU ∨
      I.opcode = Mips.BLT ∨ I.opcode = Mips.BLTU)
    (hops : I.operands = .reg z0 :: .reg z1 :: rest)
    (h0 : z0 = Mips.ZERO ∨ z0 = Mips.ZERO_64)
    (h1 : z1 = Mips.ZERO ∨ z1 = Mips.ZERO_64)
    (hz : ST.zeroReg = Mips.ZERO ∨ ST.zeroReg = Mips.ZERO_64) :
    getEquivalentCompactForm ST I =
      if ST.hasMips32r6 = true then 0
      else if ST.inMicroMipsMode = true ∧
          (I.opcode = Mips.BEQ ∨ I.opcode = Mips.BNE ∨
            I.opcode = Mips.BEQ_MM ∨ I.opcode = Mips.BNE_MM) ∧
          z1 = ST.zeroReg then
        (if I.opcode = Mips.BEQ ∨ I.opcode = Mips.BEQ_MM then Mips.BEQZC_MM
         else Mips.BNEZC_MM)
      else 0 := by
  obtain ⟨micro, r6, zr⟩ := ST
  rcases h0 with rfl | rfl <;> rcases h1 with rfl | rfl <;>
    rcases hz with rfl | rfl <;>
      rcases hop with h | h | h | h | h | h | h | h <;>
        cases micro <;> cases r6 <;>
          simp_all [getEquivalentCompactForm, MachineInstr.getOperand,
            MachineOperand.getReg, MachineOperand.isReg]

/-- C4 counterexample: BNE $zero, $zero in microMIPS mode without
MIPS32r6 gets the short form BNEZC_MM — the zero-zero override does not
apply there, contrary to the claim's "for every combination of capability
flags". -/
theorem compactForm_zero_zero_operands_cex :
    getEquivalentCompactForm ⟨true, false, Mips.ZERO⟩
      { opcode := Mips.BNE,
        operands := [.reg Mips.ZERO, .reg Mips.ZERO, .mbb 2],
        isTerminatorF := true, isBranchF := true } = Mips.BNEZC_MM ∧
    Mips.BNEZC_MM ≠ 0 := by
  decide

/-- C4 witness: BEQ $zero, $zero under MIPS32r6 in microMIPS mode returns
none even though the short/compressed-mode rule would otherwise fire. -/
theorem compactForm_zero_zero_operands_witness :
    getEquivalentCompactForm ⟨true, true, Mips.ZERO⟩
      { opcode := Mips.BEQ,
        operands := [.reg Mips.ZERO, .reg Mips.ZERO, .mbb 2],
        isTerminatorF := true, isBranchF := true } = 0 := by
  have h := compactForm_zero_zero_operands ⟨true, true, Mips.ZERO⟩
    { opcode := Mips.BEQ,
      operands := [.reg Mips.ZERO, .reg Mips.ZERO, .mbb 2],
      isTerminatorF := true, isBranchF := true } Mips.ZERO Mips.ZERO [.mbb 2]
    (Or.inl rfl) rfl (Or.inl rfl) (Or.inl rfl) (Or.inl rfl)
  simpa using h

/-- C2 (amended): for a non-pseudo branch whose second operand is the
architectural zero register, `genInstrWithNewOpc` first substitutes the
zero-operand short variant when `NewOpc` has one in the fixed table
(BEQC→BEQZC, BNEC→BNEZC, BGEC→BGEZC, BLTC→BLTZC); then, unless the
resulting opcode is in the immediate-linking JIC/JIALC family (which
copies every operand and appends an immediate 0), operand 1 is dropped —
operand 0 plus all operands from index 2 onward are copied — regardless
of whether a variant existed in the table. -/
theorem genInstr_branch_zero_operand (NewOpc : Nat) (I : MachineInstr)
    (op0 : MachineOperand) (z : Nat) (rest : List MachineOperand)
    (hbr : I.isBranchF = true) (hps : I.isPseudoF = false)
    (hops : I.operands = op0 :: .reg z :: rest)
    (hz : z = Mips.ZERO ∨ z = Mips.ZERO_64) :
    genInstrWithNewOpc NewOpc I =
      if zeroOperandVariant NewOpc = Mips.JIC ∨
          zeroOperandVariant NewOpc = Mips.JIALC ∨
          zeroOperandVariant NewOpc = Mips.JIC64 ∨
          zeroOperandVariant NewOpc = Mips.JIALC64 then
        { opcode := zeroOperandVariant NewOpc,
          operands := I.operands ++ [.imm 0] }
      else
        { opcode := zeroOperandVariant NewOpc, operands := op0 :: rest } := by
  rcases hz with rfl | rfl <;>
    simp [genInstrWithNewOpc, MachineInstr.getOperand, hops, hbr, hps,
      MachineOperand.isReg, MachineOperand.getReg]

/-- C2 counterexample: rebuilding `BEQ $10, $zero, bb3` with `NewOpc = BC`
— an opcode with no zero-operand short variant in the substitution table —
still drops operand 1, where the claim says the operands are then copied
unchanged. -/
theorem genInstr_branch_zero_operand_cex :
    zeroOperandVariant Mips.BC = Mips.BC ∧
    (genInstrWithNewOpc Mips.BC
        { opcode := Mips.BEQ,
          operands := [.reg 10, .reg Mips.ZERO, .mbb 3],
          isTerminatorF := true, isBranchF := true }).operands =
      [.reg 10, .mbb 3] ∧
    [MachineOperand.reg 10, .mbb 3] ≠
      [MachineOperand.reg 10, .reg Mips.ZERO, .mbb 3] := by
  decide

/-- C2 witness: rebuilding `BEQ $10, $zero, bb3` with `NewOpc = BEQC`
substitutes the tabled variant BEQZC and drops the zero operand. -/
theorem genInstr_branch_zero_operand_witness :
    genInstrWithNewOpc Mips.BEQC
      { opcode := Mips.BEQ,
        operands := [.reg 10, .reg Mips.ZERO, .mbb 3],
        isTerminatorF := true, isBranchF := true } =
    { opcode := Mips.BEQZC, operands := [.reg 10, .mbb 3] } := by
  have h := genInstr_branch_zero_operand Mips.BEQC
    { opcode := Mips.BEQ,
      operands := [.reg 10, .reg Mips.ZERO, .mbb 3],
      isTerminatorF := true, isBranchF := true }
    (.reg 10) Mips.ZERO [.mbb 3] rfl rfl rfl (Or.inl rfl)
  simpa [zeroOperandVariant] using h

/-- C7: for a condition descriptor with 1 to 3 elements produced by the
analyzer (leading element the conditional-branch opcode as an immediate),
applying `ReverseBranchCondition` twice gives back the original
condition, and a single application changes only the first (opcode)
element: the tail and the length are untouched. -/
theorem reverseBranchCondition_involutive (Opc : Nat)
    (rest : List MachineOperand)
    (hmem : Opc ∈ condBrOpcodes) (hlen : rest.length ≤ 2) :
    reverseBranchCondition
        (reverseBranchCondition (.imm (Int.ofNat Opc) :: rest)) =
      .imm (Int.ofNat Opc) :: rest ∧
    (reverseBranchCondition (.imm (Int.ofNat Opc) :: rest)).tail = rest ∧
    (reverseBranchCondition (.imm (Int.ofNat Opc) :: rest)).length =
      rest.length + 1 := by
  refine ⟨?_, rfl, by simp [reverseBranchCondition]⟩
  fin_cases hmem <;>
    simp [reverseBranchCondition, getOppositeBranchOpc, MachineOperand.getImm]

/-- C7 witness: reversing `[BEQ, $10, $11]` twice gives it back; one
application keeps the register elements. -/
theorem reverseBranchCondition_involutive_witness :
    reverseBranchCondition
        (reverseBranchCondition
          [.imm (Int.ofNat Mips.BEQ), .reg 10, .reg 11]) =
      [.imm (Int.ofNat Mips.BEQ), .reg 10, .reg 11] ∧
    (reverseBranchCondition
        [.imm (Int.ofNat Mips.BEQ), .reg 10, .reg 11]).tail =
      [MachineOperand.reg 10, .reg 11] ∧
    (reverseBranchCondition
        [.imm (Int.ofNat Mips.BEQ), .reg 10, .reg 11]).length = 3 :=
  reverseBranchCondition_involutive Mips.BEQ [.reg 10, .reg 11]
    (by decide) (by decide)

/-- The removal loop of `RemoveBranch` erases exactly the analyzable
prefix of the (debug-stripped) reversed block, capped by its fuel. -/
theorem removeLoopCount_eq_min (analyzable : Nat → Bool)
    (l : List MachineInstr) :
    ∀ fuel, removeLoopCount analyzable l fuel =
      min fuel (l.takeWhile (fun I => analyzable I.opcode)).length := by
  induction l with
  | nil => intro fuel; cases fuel <;> simp [removeLoopCount]
  | cons a l ih =>
    intro fuel
    cases fuel with
    | zero => simp [removeLoopCount]
    | succ f =>
      by_cases h : analyzable a.opcode <;>
        simp [removeLoopCount, h, List.takeWhile_cons, ih f,
          Nat.succ_min_succ]

/-- C5: `RemoveBranch` removes at most 2 trailing instructions — exactly
the analyzable-branch prefix of the block's debug-stripped tail, capped
at 2, stopping at the first non-analyzable instruction — returns that
count, and removes no other instruction (the trailing debug markers and
everything before the removed branches survive). In particular a block
ending with two analyzable branches loses exactly 2 instructions, and a
block ending with a non-analyzable instruction (e.g. an indirect jump)
is returned whole with count 0. -/
theorem removeBranch_spec (analyzable : Nat → Bool)
    (MBB : List MachineInstr) :
    (removeBranchModel analyzable MBB).1 =
      min 2 ((MBB.reverse.dropWhile MachineInstr.isDebugValueF).takeWhile
        (fun I => analyzable I.opcode)).length ∧
    (removeBranchModel analyzable MBB).1 ≤ 2 ∧
    (removeBranchModel analyzable MBB).2 =
      ((MBB.reverse.dropWhile MachineInstr.isDebugValueF).drop
          (removeBranchModel analyzable MBB).1).reverse ++
        (MBB.reverse.takeWhile MachineInstr.isDebugValueF).reverse ∧
    (∀ pre c u, MBB = pre ++ [c, u] → u.isDebugValueF = false →
      analyzable c.opcode = true → analyzable u.opcode = true →
      (removeBranchModel analyzable MBB).1 = 2) ∧
    (∀ pre j, MBB = pre ++ [j] → j.isDebugValueF = false →
      analyzable j.opcode = false →
      (removeBranchModel analyzable MBB).1 = 0 ∧
      (removeBranchModel analyzable MBB).2 = MBB) := by
  refine ⟨?_, ?_, rfl, ?_, ?_⟩
  · simp [removeBranchModel, removeLoopCount_eq_min]
  · simp [removeBranchModel, removeLoopCount_eq_min]
  · rintro pre c u rfl hu hc hu2
    simp [removeBranchModel, removeLoopCount_eq_min, hu, hc, hu2,
      List.dropWhile_cons]
  · rintro pre j rfl hj hja
    constructor
    · simp [removeBranchModel, removeLoopCount_eq_min, hj, hja,
        List.dropWhile_cons]
    · simp [removeBranchModel, removeLoopCount_eq_min, hj, hja,
        List.dropWhile_cons, List.takeWhile_append_dropWhile]

/-- `BuildCondBr` copies register and immediate condition operands
verbatim (any other kind is a fatal contract violation in the source). -/
theorem copyCondOperand_flatten (l : List MachineOperand)
    (h : ∀ o ∈ l, o.isReg = true ∨ o.isImm = true) :
    (l.map copyCondOperand).flatten = l := by
  induction l with
  | nil => simp
  | cons a l ih =>
    have ha := h a (List.mem_cons_self a l)
    have hl : ∀ o ∈ l, o.isReg = true ∨ o.isImm = true :=
      fun o ho => h o (List.mem_cons_of_mem a ho)
    cases a <;> simp_all [copyCondOperand, MachineOperand.isReg,
      MachineOperand.isImm]

/-- C6: with a non-null true target, `InsertBranch` with a false target
present appends the conditional branch materialized from the condition
(opcode from its leading element, then the condition operands, then the
true target) followed by an unconditional branch to the false target and
returns 2; with no false target it appends a single unconditional branch
to the true target when the condition is empty, else a single conditional
branch, and returns 1. -/
theorem insertBranch_spec (UncondBrOpc TBB : Nat) (FBB : Option Nat)
    (Cond : List MachineOperand)
    (hc : ∀ o ∈ Cond.drop 1, o.isReg = true ∨ o.isImm = true) :
    (∀ f, FBB = some f →
      insertBranchModel UncondBrOpc TBB FBB Cond =
        ([⟨(Cond.headD (.imm 0)).getImm.toNat, Cond.drop 1 ++ [.mbb TBB]⟩,
          ⟨UncondBrOpc, [.mbb f]⟩], 2)) ∧
    (FBB = none → Cond = [] →
      insertBranchModel UncondBrOpc TBB FBB Cond =
        ([⟨UncondBrOpc, [.mbb TBB]⟩], 1)) ∧
    (FBB = none → Cond ≠ [] →
      insertBranchModel UncondBrOpc TBB FBB Cond =
        ([⟨(Cond.headD (.imm 0)).getImm.toNat,
           Cond.drop 1 ++ [.mbb TBB]⟩], 1)) := by
  refine ⟨?_, ?_, ?_⟩
  · rintro f rfl
    cases Cond with
    | nil => simp [insertBranchModel, buildCondBr]
    | cons c0 ctail =>
      simp [insertBranchModel, buildCondBr,
        copyCondOperand_flatten ctail (by simpa using hc)]
  · rintro rfl rfl
    simp [insertBranchModel]
  · rintro rfl hne
    cases Cond with
    | nil => exact absurd rfl hne
    | cons c0 ctail =>
      simp [insertBranchModel, buildCondBr,
        copyCondOperand_flatten ctail (by simpa using hc)]

/-- C6 witness: inserting a two-way branch for the condition
`[BEQ, $10, $11]` with true target bb4 and false target bb5 appends
`BEQ $10, $11, bb4; B bb5` and reports 2. -/
theorem insertBranch_spec_witness :
    insertBranchModel Mips.B 4 (some 5)
        [.imm (Int.ofNat Mips.BEQ), .reg 10, .reg 11] =
      ([⟨Mips.BEQ, [.reg 10, .reg 11, .mbb 4]⟩, ⟨Mips.B, [.mbb 5]⟩], 2) := by
  have h := (insertBranch_spec Mips.B 4 (some 5)
    [.imm (Int.ofNat Mips.BEQ), .reg 10, .reg 11] (by decide)).1 5 rfl
  simpa using h

/-- C9: with the permission-to-mutate flag false, `analyzeBranch` leaves
the block's instruction sequence completely unchanged, whatever the
classification turns out to be. -/
theorem analyzeBranch_no_modify_frame (analyzable : Nat → Bool)
    (MBB : List MachineInstr) :
    (analyzeBranchModel analyzable MBB false).blk = MBB := by
  unfold analyzeBranchModel
  cases h : MBB.reverse.dropWhile MachineInstr.isDebugValueF with
  | nil => rfl
  | cons LastInst rest1 =>
    cases rest1 with
    | nil =>
      simp only [analyzeSingleBr]
      split_ifs <;> rfl
    | cons SecondLastInst rest2 =>
      simp only [analyzeSingleBr, Bool.not_false]
      split_ifs <;> simp_all

/-- C3: on a block whose debug-stripped tail is exactly two analyzable
real terminators with the second-last an unconditional branch (and no
third terminator before them), `analyzeBranch` with mutation disallowed
reports Unanalyzable (`BT_None`) and leaves the block unchanged, and with
mutation allowed reports Unconditional with the true target equal to the
second-last instruction's target and deletes the last instruction. -/
theorem analyzeBranch_second_uncond (analyzable : Nat → Bool)
    (MBB : List MachineInstr) (LastI SecondI : MachineInstr)
    (rest : List MachineInstr)
    (htail : MBB.reverse.dropWhile MachineInstr.isDebugValueF =
      LastI :: SecondI :: rest)
    (hlt : LastI.isTerminatorF = true)
    (hla : analyzable LastI.opcode = true)
    (hst : SecondI.isTerminatorF = true)
    (hsa : analyzable SecondI.opcode = true)
    (hsu : SecondI.isUncondBranchF = true)
    (hthird : ∀ t, rest.head? = some t → t.isTerminatorF = false) :
    analyzeBranchModel analyzable MBB false =
      ⟨.BT_None, none, none, [], MBB⟩ ∧
    analyzeBranchModel analyzable MBB true =
      ⟨.BT_Uncond, some ((SecondI.getOperand 0).getMBB), none, [],
        (SecondI :: rest).reverse ++
          (MBB.reverse.takeWhile MachineInstr.isDebugValueF).reverse⟩ := by
  constructor <;>
    · unfold analyzeBranchModel
      rw [htail]
      cases rest with
      | nil => simp [hlt, hla, hsa, hsu]
      | cons t ts => simp [hlt, hla, hsa, hsu, hthird t rfl]

/-- C3 witness: block `[B bb7, B bb9]` (both analyzable unconditional
branches): without permission to mutate the analysis refuses; with it,
the dead `B bb9` is deleted and the result is Unconditional to bb7. -/
theorem analyzeBranch_second_uncond_witness :
    analyzeBranchModel (fun opc => opc == Mips.B)
        [{ opcode := Mips.B, operands := [.mbb 7], isTerminatorF := true,
           isBranchF := true, isUncondBranchF := true },
         { opcode := Mips.B, operands := [.mbb 9], isTerminatorF := true,
           isBranchF := true, isUncondBranchF := true }] false =
      ⟨.BT_None, none, none, [],
        [{ opcode := Mips.B, operands := [.mbb 7], isTerminatorF := true,
           isBranchF := true, isUncondBranchF := true },
         { opcode := Mips.B, operands := [.mbb 9], isTerminatorF := true,
           isBranchF := true, isUncondBranchF := true }]⟩ ∧
    analyzeBranchModel (fun opc => opc == Mips.B)
        [{ opcode := Mips.B, operands := [.mbb 7], isTerminatorF := true,
           isBranchF := true, isUncondBranchF := true },
         { opcode := Mips.B, operands := [.mbb 9], isTerminatorF := true,
           isBranchF := true, isUncondBranchF := true }] true =
      ⟨.BT_Uncond, some 7, none, [],
        [{ opcode := Mips.B, operands := [.mbb 7], isTerminatorF := true,
           isBranchF := true, isUncondBranchF := true }]⟩ := by
  have h := analyzeBranch_second_uncond (fun opc => opc == Mips.B)
    [{ opcode := Mips.B, operands := [.mbb 7], isTerminatorF := true,
       isBranchF := true, isUncondBranchF := true },
     { opcode := Mips.B, operands := [.mbb 9], isTerminatorF := true,
       isBranchF := true, isUncondBranchF := true }]
    { opcode := Mips.B, operands := [.mbb 9], isTerminatorF := true,
      isBranchF := true, isUncondBranchF := true }
    { opcode := Mips.B, operands := [.mbb 7], isTerminatorF := true,
      isBranchF := true, isUncondBranchF := true }
    [] rfl rfl rfl rfl rfl rfl (fun t ht => by cases ht)
  simpa using h

/-- C8: on a block whose debug-stripped tail is two analyzable real
terminators immediately preceded by a third real terminator,
`analyzeBranch` reports Unanalyzable (`BT_None`) and produces no targets
and no condition, for either value of the permission-to-mutate flag. -/
theorem analyzeBranch_three_terminators (analyzable : Nat → Bool)
    (MBB : List MachineInstr) (LastI SecondI ThirdI : MachineInstr)
    (rest : List MachineInstr) (AllowModify : Bool)
    (htail : MBB.reverse.dropWhile MachineInstr.isDebugValueF =
      LastI :: SecondI :: ThirdI :: rest)
    (hlt : LastI.isTerminatorF = true)
    (hla : analyzable LastI.opcode = true)
    (hsa : analyzable SecondI.opcode = true)
    (htt : ThirdI.isTerminatorF = true) :
    analyzeBranchModel analyzable MBB AllowModify =
      ⟨.BT_None, none, none, [], MBB⟩ := by
  unfold analyzeBranchModel
  rw [htail]
  simp [hlt, hla, hsa, htt]

/-- C8 witness: block `[B bb5, B bb6, B bb7]` — three analyzable
terminators — is reported Unanalyzable with no targets, no condition and
no mutation. -/
theorem analyzeBranch_three_terminators_witness :
    analyzeBranchModel (fun opc => opc == Mips.B)
        [{ opcode := Mips.B, operands := [.mbb 5], isTerminatorF := true,
           isBranchF := true, isUncondBranchF := true },
         { opcode := Mips.B, operands := [.mbb 6], isTerminatorF := true,
           isBranchF := true, isUncondBranchF := true },
         { opcode := Mips.B, operands := [.mbb 7], isTerminatorF := true,
           isBranchF := true, isUncondBranchF := true }] true =
      ⟨.BT_None, none, none, [],
        [{ opcode := Mips.B, operands := [.mbb 5], isTerminatorF := true,
           isBranchF := true, isUncondBranchF := true },
         { opcode := Mips.B, operands := [.mbb 6], isTerminatorF := true,
           isBranchF := true, isUncondBranchF := true },
         { opcode := Mips.B, operands := [.mbb 7], isTerminatorF := true,
           isBranchF := true, isUncondBranchF := true }]⟩ := by
  have h := analyzeBranch_three_terminators (fun opc => opc == Mips.B)
    [{ opcode := Mips.B, operands := [.mbb 5], isTerminatorF := true,
       isBranchF := true, isUncondBranchF := true },
     { opcode := Mips.B, operands := [.mbb 6], isTerminatorF := true,
       isBranchF := true, isUncondBranchF := true },
     { opcode := Mips.B, operands := [.mbb 7], isTerminatorF := true,
       isBranchF := true, isUncondBranchF := true }]
    { opcode := Mips.B, operands := [.mbb 7], isTerminatorF := true,
      isBranchF := true, isUncondBranchF := true }
    { opcode := Mips.B, operands := [.mbb 6], isTerminatorF := true,
      isBranchF := true, isUncondBranchF := true }
    { opcode := Mips.B, operands := [.mbb 5], isTerminatorF := true,
      isBranchF := true, isUncondBranchF := true }
    [] true rfl rfl rfl rfl rfl
  simpa using h

/-- C10: the boolean `analyzeBranch` wrapper returns true — could not
analyze — exactly when the detailed classification is Unanalyzable
(`BT_None`) or Indirect, so an indirect-branch tail and an unanalyzable
one are indistinguishable to generic callers, while a fall-through block
(`BT_NoBranch`) is reported as successfully analyzed. -/
theorem analyzeBranchBool_iff (analyzable : Nat → Bool)
    (MBB : List MachineInstr) (AllowModify : Bool) :
    (analyzeBranchBool analyzable MBB AllowModify = true ↔
      (analyzeBranchModel analyzable MBB AllowModify).bt = .BT_None ∨
      (analyzeBranchModel analyzable MBB AllowModify).bt = .BT_Indirect) ∧
    ((analyzeBranchModel analyzable MBB AllowModify).bt = .BT_NoBranch →
      analyzeBranchBool analyzable MBB AllowModify = false) := by
  constructor
  · simp [analyzeBranchBool]
  · intro h
    simp [analyzeBranchBool, h]
